import Mathlib

/-!
Verification of the HTML report generator: name decomposition, deterministic
ordering, base64 embedding, and document assembly, modelled as pure functions
over character lists and an explicit filesystem tree.
-/

namespace HtmlGen

/-- View a string literal as its list of characters; all of the development
works over `List Char`. -/
def str (s : String) : List Char := s.data

/-- Characters removed by Python `str.strip()` (the ASCII/Latin-1 whitespace
range; wider Unicode space classes never occur in the inputs considered). -/
def isSpaceChar (c : Char) : Bool :=
  c = ' ' || c = '\t' || c = '\n' || c = '\r' || c = '\x0b' || c = '\x0c' ||
  c = '\x1c' || c = '\x1d' || c = '\x1e' || c = '\x1f' || c = '\x85' || c = '\xa0'

/-- Remove trailing whitespace characters. -/
def dropTrailingSpace (l : List Char) : List Char :=
  (l.reverse.dropWhile isSpaceChar).reverse

/-- Model of Python `str.strip()`: remove trailing then leading whitespace. -/
def pyStrip (l : List Char) : List Char :=
  (dropTrailingSpace l).dropWhile isSpaceChar

/-- Semantics of the Python regex fragment `(.+)$` applied to the whole of `u`
(`.` does not match a newline; `$` also matches just before a newline that ends
the string): returns the greedy capture of the group when the fragment
matches. -/
def dotPlusDollar (u : List Char) : Option (List Char) :=
  if u = [] then none
  else if '\n' ∈ u then
    if u.getLast? = some '\n' ∧ u.dropLast ≠ [] ∧ '\n' ∉ u.dropLast then
      some u.dropLast
    else none
  else some u

/-- The result produced when the optional digit-run group of the source regex
`^(\d+_)?(.+)$` does not participate: group 2 is the greedy `(.+)` capture of
the whole name, and when the regex fails entirely the source falls back to
`("", name.strip())`. -/
def noPrefixResult (name : List Char) : List Char × List Char :=
  match dotPlusDollar name with
  | some r => ([], pyStrip r)
  | none => ([], pyStrip name)

/-- Model of `detect_and_remove_prefix` from `html_generator.py`: match
`re.match(r"^(\d+_)?(.+)$", name)`; the optional group, matched greedily,
captures the maximal leading digit run plus `'_'` provided the character
after that run is `'_'` and the rest still matches `(.+)$`; the function
returns `(match.group(1) or "", match.group(2).strip())`, and
`("", name.strip())` when the regex does not match at all. -/
def detect_and_remove_prefix (name : List Char) : List Char × List Char :=
  match name.dropWhile Char.isDigit with
  | '_' :: tail =>
    if name.takeWhile Char.isDigit = [] then noPrefixResult name
    else
      match dotPlusDollar tail with
      | some r => (name.takeWhile Char.isDigit ++ ['_'], pyStrip r)
      | none => noPrefixResult name
  | _ => noPrefixResult name

/-- Whether `name` matches the Python regex `^\d+_.+$` (with `re` semantics:
`.` does not match a newline, and `$` also matches just before a trailing
newline). -/
def matchesNumUnderscore (name : List Char) : Bool :=
  decide (name.takeWhile Char.isDigit ≠ []) &&
  match name.dropWhile Char.isDigit with
  | '_' :: tail => (dotPlusDollar tail).isSome
  | _ => false

/-- Numeric value of a digit run, as Python `int()` reads it (leading zeros
allowed). -/
def digitsToNat (ds : List Char) : Nat :=
  ds.foldl (fun acc c => 10 * acc + (c.toNat - 48)) 0

/-- A filesystem entry: a file with its byte content, or a directory with its
children. -/
inductive Entry where
  | file (name : List Char) (content : List Nat)
  | dir (name : List Char) (children : List Entry)

/-- The name of an entry (`item.name` in the source). -/
def Entry.name : Entry → List Char
  | .file n _ => n
  | .dir n _ => n

/-- Whether the entry is a directory (`is_dir()` in the source). -/
def Entry.isDir : Entry → Bool
  | .file _ _ => false
  | .dir _ _ => true

/-- The numeric part of the sort key from `extract_key` in the source:
`int(prefix[:-1])` when a prefix was detected, else `float("inf")`, modelled
as `WithTop ℕ` with `⊤` for infinity. -/
def sortKeyNum (name : List Char) : WithTop Nat :=
  if ( detect_and_remove_prefix name).1 = [] then ⊤
  else (digitsToNat ( detect_and_remove_prefix name).1.dropLast : Nat)

/-- `extract_key` from the source: the pair (numeric value or infinity,
original name). -/
def extract_key (name : List Char) : WithTop Nat × List Char :=
  (sortKeyNum name, name)

/-- Python's `<=` on key tuples: strictly smaller numeric part, or equal
numeric parts and lexicographically `≤` names (code-point order). -/
def keyLE (a b : WithTop Nat × List Char) : Prop :=
  a.1 < b.1 ∨ (a.1 = b.1 ∧ a.2 ≤ b.2)

instance : DecidableRel keyLE := fun a b => by
  unfold keyLE; infer_instance

/-- The comparison `sorted` effectively uses on entries. -/
def entryLE (a b : Entry) : Prop :=
  keyLE (extract_key a.name) (extract_key b.name)

instance : DecidableRel entryLE := fun a b => by
  unfold entryLE; infer_instance

instance : IsTotal Entry entryLE :=
  ⟨fun a b => by
    unfold entryLE keyLE extract_key
    rcases lt_trichotomy (sortKeyNum a.name) (sortKeyNum b.name) with h | h | h
    · exact Or.inl (Or.inl h)
    · rcases le_total a.name b.name with hn | hn
      · exact Or.inl (Or.inr ⟨h, hn⟩)
      · exact Or.inr (Or.inr ⟨h.symm, hn⟩)
    · exact Or.inr (Or.inl h)⟩

instance : IsTrans Entry entryLE :=
  ⟨fun a b c hab hbc => by
    unfold entryLE keyLE extract_key at *
    rcases hab with h1 | ⟨h1, h1'⟩ <;> rcases hbc with h2 | ⟨h2, h2'⟩
    · exact Or.inl (h1.trans h2)
    · exact Or.inl (h2 ▸ h1)
    · exact Or.inl (h1 ▸ h2)
    · exact Or.inr ⟨h1.trans h2, h1'.trans h2'⟩⟩

/-- Model of `sort_files_and_folders`: Python's `sorted` is a stable sort by
`extract_key`; modelled by insertion sort, which is stable for the reflexive
total comparison `entryLE`. -/
def sort_files_and_folders (items : List Entry) : List Entry :=
  items.insertionSort entryLE

/-- The ordering the spec describes: entries with a numeric prefix come first,
ordered by ascending integer value with ties broken by the full original name;
entries without a prefix follow, ordered by name. -/
def specOrder (a b : Entry) : Prop :=
  match sortKeyNum a.name, sortKeyNum b.name with
  | (m : Nat), (n : Nat) => m < n ∨ (m = n ∧ a.name ≤ b.name)
  | (_ : Nat), ⊤ => True
  | ⊤, (_ : Nat) => False
  | ⊤, ⊤ => a.name ≤ b.name

/-- The base64 alphabet character for a 6-bit value. -/
def b64AlphaChar (n : Nat) : Char :=
  if n < 26 then Char.ofNat (65 + n)
  else if n < 52 then Char.ofNat (97 + (n - 26))
  else if n < 62 then Char.ofNat (48 + (n - 52))
  else if n = 62 then '+'
  else '/'

/-- RFC 4648 base64 encoding of a byte list: model of `base64.b64encode`,
which the source applies to the image file's bytes. -/
def b64encode : List Nat → List Char
  | [] => []
  | [a] => [b64AlphaChar (a / 4), b64AlphaChar (a % 4 * 16), '=', '=']
  | [a, b] => [b64AlphaChar (a / 4), b64AlphaChar (a % 4 * 16 + b / 16),
      b64AlphaChar (b % 16 * 4), '=']
  | a :: b :: c :: rest =>
      b64AlphaChar (a / 4) :: b64AlphaChar (a % 4 * 16 + b / 16) ::
      b64AlphaChar (b % 16 * 4 + c / 64) :: b64AlphaChar (c % 64) ::
      b64encode rest

/-- The 6-bit value of a base64 alphabet character. -/
def b64CharVal (c : Char) : Option Nat :=
  if 'A' ≤ c ∧ c ≤ 'Z' then some (c.toNat - 65)
  else if 'a' ≤ c ∧ c ≤ 'z' then some (c.toNat - 97 + 26)
  else if '0' ≤ c ∧ c ≤ '9' then some (c.toNat - 48 + 52)
  else if c = '+' then some 62
  else if c = '/' then some 63
  else none

/-- Standard (RFC 4648) base64 decoding of a correctly padded string: groups
of four characters become three bytes, a final `xy==` group one byte, and a
final `xyz=` group two bytes. -/
def b64decode : List Char → Option (List Nat)
  | [] => some []
  | w :: x :: y :: z :: rest =>
    match b64CharVal w, b64CharVal x with
    | some vw, some vx =>
      if y = '=' ∧ z = '=' ∧ rest = [] then some [vw * 4 + vx / 16]
      else
        match b64CharVal y with
        | some vy =>
          if z = '=' ∧ rest = [] then
            some [vw * 4 + vx / 16, vx % 16 * 16 + vy / 4]
          else
            match b64CharVal z, b64decode rest with
            | some vz, some bs =>
              some ((vw * 4 + vx / 16) :: (vx % 16 * 16 + vy / 4) ::
                (vy % 4 * 64 + vz) :: bs)
            | _, _ => none
        | none => none
    | _, _ => none
  | _ => none

/-- `encode_image_to_base64` from the source: read the whole file and base64
encode its bytes (reading is the identity on the stored content in the
filesystem model). -/
def encode_image_to_base64 (content : List Nat) : List Char :=
  b64encode content

/-- The children of an entry (empty for a plain file). -/
def Entry.children : Entry → List Entry
  | .file _ _ => []
  | .dir _ cs => cs

/-- `fnmatch` of the glob pattern `*.ext` used by `folder.glob`: the name ends
with the extension (`*` matches any, possibly empty, run of characters). -/
def globMatch (ext name : List Char) : Bool :=
  ext.isSuffixOf name

/-- pathlib's `.stem`: the name without its suffix, where the suffix starts at
the last dot provided that dot is neither the leading nor the final
character. -/
def stem (name : List Char) : List Char :=
  if '.' ∈ name ∧ 0 < name.length - 1 - name.reverse.indexOf '.' ∧
      name.length - 1 - name.reverse.indexOf '.' < name.length - 1 then
    name.take (name.length - 1 - name.reverse.indexOf '.')
  else name

/-- Split a character list at every occurrence of `sep`. -/
def splitOnChar (sep : Char) : List Char → List (List Char)
  | [] => [[]]
  | c :: cs =>
    match splitOnChar sep cs with
    | [] => [[]]
    | r :: rs => if c = sep then [] :: r :: rs else (c :: r) :: rs

/-- Decode file bytes as text (the CSV inputs considered are ASCII). -/
def bytesToChars (bs : List Nat) : List Char :=
  bs.map Char.ofNat

/-- Model of `pd.read_csv` for the simple CSV shapes used here: decode the
bytes as text, split into lines (skipping blank lines, pandas'
`skip_blank_lines` default), take the first line as the header and split
every line on commas. An input with no non-blank lines raises
`EmptyDataError`; a row with more fields than the header raises a tokenizing
`ParserError`; a row with fewer fields is padded with NaN. Opening a
directory raises `IsADirectoryError`. -/
def read_csv :
    Entry → Except (List Char) (List (List Char) × List (List (List Char)))
  | .dir _ _ => .error (str "IsADirectoryError")
  | .file _ content =>
    match (splitOnChar '\n' (bytesToChars content)).filter
        (fun l => !l.isEmpty) with
    | [] => .error (str "EmptyDataError: No columns to parse from file")
    | h :: rows =>
      if (rows.map (splitOnChar ',')).any
          (fun r => (splitOnChar ',' h).length < r.length) then
        .error (str "ParserError: Error tokenizing data")
      else
        .ok (splitOnChar ',' h,
          (rows.map (splitOnChar ',')).map (fun r =>
            r ++ List.replicate ((splitOnChar ',' h).length - r.length)
              (str "NaN")))

/-- Model of `DataFrame.to_html(index=False, classes="table")`: pandas' fixed
layout with two-space indentation, a styled header row, and no index
column. -/
def to_html (header : List (List Char)) (rows : List (List (List Char))) :
    List Char :=
  str "<table border=\"1\" class=\"dataframe table\">\n  <thead>\n    <tr style=\"text-align: right;\">\n" ++
  (header.map (fun h => str "      <th>" ++ h ++ str "</th>\n")).flatten ++
  str "    </tr>\n  </thead>\n  <tbody>\n" ++
  (rows.map (fun r =>
    str "    <tr>\n" ++
    (r.map (fun c => str "      <td>" ++ c ++ str "</td>\n")).flatten ++
    str "    </tr>\n")).flatten ++
  str "  </tbody>\n</table>"

/-- Reading an image file's bytes; opening a directory for reading raises. -/
def readImage : Entry → Except (List Char) (List Nat)
  | .dir _ _ => .error (str "IsADirectoryError")
  | .file _ content => .ok content

/-- Join segments with newline separators (the inverse of splitting a text
into lines). -/
def segJoin : List (List Char) → List Char
  | [] => []
  | [s] => s
  | s :: t :: ss => s ++ '\n' :: segJoin (t :: ss)

/-- The lines of the string returned by `get_html_template` in the source
(the triple-quoted literal starts and ends with partial blank lines). -/
def tplSegs : List (List Char) := [
  str "",
  str "    <html>",
  str "    <head>",
  str "        <title>HTML Report</title>",
  str "        <style>",
  str "            body \x7b font-family: Arial, sans-serif; margin: 0; padding: 20px; background-color: #f4f4f4; \x7d",
  str "            .container \x7b max-width: 1000px; margin: auto; background: white; padding: 20px; box-shadow: 0 0 10px rgba(0, 0, 0, 0.1); \x7d",
  str "            h1 \x7b text-align: center; color: #333; \x7d",
  str "            h2 \x7b border-bottom: 2px solid #4CAF50; color: #4CAF50; padding-bottom: 5px; \x7d",
  str "            table \x7b width: 100%; border-collapse: collapse; margin: 20px 0; \x7d",
  str "            table, th, td \x7b border: 1px solid #ddd; \x7d",
  str "            th, td \x7b padding: 8px; text-align: left; \x7d",
  str "            th \x7b background-color: #4CAF50; color: white; \x7d",
  str "            .plot \x7b text-align: center; margin: 20px 0; \x7d",
  str "            .plot img \x7b max-width: 100%; height: auto; \x7d",
  str "            .tabs \x7b display: flex; margin-bottom: 20px; cursor: pointer; justify-content: space-around; \x7d",
  str "            .tab \x7b padding: 10px; background-color: #4CAF50; color: white; border-radius: 5px 5px 0 0; flex-grow: 1; text-align: center; margin: 0 5px; \x7d",
  str "            .tab.active-tab \x7b background-color: #333; \x7d",
  str "            .tab-content \x7b display: none; padding: 20px; border: 1px solid #ddd; border-top: none; background-color: white; \x7d",
  str "            .tab-content.active-content \x7b display: block; \x7d",
  str "        </style>",
  str "    </head>",
  str "    <body>",
  str "        <div class=\"container\">",
  str "    "]

/-- The exact string returned by `get_html_template` in the source, written
as its newline-joined lines (see `get_html_template_eq` for the monolithic
form). -/
def get_html_template : List Char :=
  segJoin tplSegs

/-- The lines of the string returned by `get_html_closing` in the source. -/
def closingSegs : List (List Char) := [
  str "",
  str "        </div>",
  str "        <script>",
  str "            function openTab(evt, tabName) \x7b",
  str "                var i, tabcontent, tablinks;",
  str "                tabcontent = document.getElementsByClassName(\"tab-content\");",
  str "                for (i = 0; i < tabcontent.length; i++) \x7b",
  str "                    tabcontent[i].style.display = \"none\";",
  str "                \x7d",
  str "                tablinks = document.getElementsByClassName(\"tab\");",
  str "                for (i = 0; i < tablinks.length; i++) \x7b",
  str "                    tablinks[i].className = tablinks[i].className.replace(\" active-tab\", \"\");",
  str "                \x7d",
  str "                document.getElementById(tabName).style.display = \"block\";",
  str "                evt.currentTarget.className += \" active-tab\";",
  str "            \x7d",
  str "            document.addEventListener(\"DOMContentLoaded\", function() \x7b",
  str "                document.querySelector(\".tab\").click();",
  str "            \x7d);",
  str "        </script>",
  str "    </body>",
  str "    </html>",
  str "    "]

/-- The exact string returned by `get_html_closing` in the source, written as
its newline-joined lines (see `get_html_closing_eq`). -/
def get_html_closing : List Char :=
  segJoin closingSegs

/-- The display label of a tab: the decomposed folder name. -/
def tabName (folderName : List Char) : List Char :=
  ( detect_and_remove_prefix folderName).2

/-- `tab_name.replace(" ", "_")`: replacing a single character by a single
character is a character-wise map. -/
def tabId (folderName : List Char) : List Char :=
  (tabName folderName).map fun c => if c = ' ' then '_' else c

/-- The clickable tab link emitted for one subfolder. -/
def tabLink (folderName : List Char) : List Char :=
  str "<div class=\"tab\" onclick=\"openTab(event, \x27" ++ tabId folderName ++
  str "\x27)\">" ++ tabName folderName ++ str "</div>"

/-- The `<h2>` heading plus rendered table for one CSV file. -/
def csvFragment (e : Entry) : Except (List Char) (List Char) :=
  match read_csv e with
  | .error msg => .error msg
  | .ok (header, rows) =>
    .ok (str "<h2>" ++ ( detect_and_remove_prefix (stem e.name)).2 ++
      str "</h2>" ++ to_html header rows)

/-- The heading-plus-embedded-image block for one PNG file, with the exact
whitespace of the source's f-string. -/
def plotFragment (e : Entry) : Except (List Char) (List Char) :=
  match readImage e with
  | .error msg => .error msg
  | .ok bytes =>
    .ok (str "\n            <div class=\"plot\">\n                <h3>" ++
      ( detect_and_remove_prefix (stem e.name)).2 ++
      str "</h3>\n                <img src=\"data:image/png;base64," ++
      encode_image_to_base64 bytes ++
      str "\" alt=\"" ++ ( detect_and_remove_prefix (stem e.name)).2 ++
      str "\">\n            </div>\n            ")

/-- Concatenate the fragments of the listed files in order, stopping at the
first error (an exception in the loop body propagates out of
`generate_html_report`). -/
def concatFragments (f : Entry → Except (List Char) (List Char)) :
    List Entry → Except (List Char) (List Char)
  | [] => .ok []
  | e :: es =>
    match f e with
    | .error msg => .error msg
    | .ok s =>
      match concatFragments f es with
      | .error msg => .error msg
      | .ok t => .ok (s ++ t)

/-- The `*.csv` entries of a folder, in the sorted order in which the source
processes them. -/
def sortedCsvs (folder : Entry) : List Entry :=
  sort_files_and_folders
    (folder.children.filter (fun e => globMatch (str ".csv") e.name))

/-- The `*.png` entries of a folder, in the sorted order in which the source
processes them. -/
def sortedPngs (folder : Entry) : List Entry :=
  sort_files_and_folders
    (folder.children.filter (fun e => globMatch (str ".png") e.name))

/-- One iteration of the folder loop: the tab link and the complete
tab-content block for one subdirectory (all CSV tables first, then all
embedded plots). -/
def processFolder (folder : Entry) :
    Except (List Char) (List Char × List Char) :=
  match concatFragments csvFragment (sortedCsvs folder) with
  | .error msg => .error msg
  | .ok csvPart =>
    match concatFragments plotFragment (sortedPngs folder) with
    | .error msg => .error msg
    | .ok pngPart =>
      .ok (tabLink folder.name,
        str "<div id=\"" ++ tabId folder.name ++
        str "\" class=\"tab-content\">" ++ csvPart ++ pngPart ++ str "</div>")

/-- The main loop over the sorted top-level entries: skip non-directories,
process each folder, and accumulate the joined tab links and tab contents. -/
def goFolders : List Entry → Except (List Char) (List Char × List Char)
  | [] => .ok ([], [])
  | e :: es =>
    if e.isDir then
      match processFolder e with
      | .error msg => .error msg
      | .ok (link, content) =>
        match goFolders es with
        | .error msg => .error msg
        | .ok (links, contents) => .ok (link ++ links, content ++ contents)
    else goFolders es

/-- What the input path resolves to on disk. -/
inductive PathTarget where
  | missing
  | file (content : List Nat)
  | dir (entries : List Entry)

/-- `Path.is_dir()` on the input path. -/
def PathTarget.isDirTarget : PathTarget → Bool
  | .dir _ => true
  | _ => false

/-- Model of `generate_html_report`: validate the input directory, process
every sorted subfolder, and assemble the document. The final file write is
modelled by the returned document; any exception on the way is the `Except`
error and no document is produced. -/
def generate_html_report (input_path : List Char) :
    PathTarget → Except (List Char) (List Char)
  | .dir entries =>
    match goFolders (sort_files_and_folders entries) with
    | .error msg => .error msg
    | .ok (links, contents) =>
      .ok (get_html_template ++
        str "<h1>HTML Report</h1><div class=\x27tabs\x27>" ++ links ++
        str "</div>" ++ contents ++ get_html_closing)
  | .missing => .error (input_path ++ str " is not a valid directory.")
  | .file _ => .error (input_path ++ str " is not a valid directory.")

/-- The state of the output file after a run, starting from a possibly
pre-existing file: the source opens the output for writing only after the
whole document is assembled, so an error leaves the previous file
untouched. -/
def writeReport (input_path : List Char) (t : PathTarget)
    (prev : Option (List Char)) : Option (List Char) :=
  match generate_html_report input_path t with
  | .ok doc => some doc
  | .error _ => prev

/-- Number of (possibly overlapping) occurrences of `pat` in `doc`. -/
def countSubstr (pat : List Char) : List Char → Nat
  | [] => if pat.isEmpty then 1 else 0
  | c :: rest =>
    (if pat.isPrefixOf (c :: rest) then 1 else 0) + countSubstr pat rest

/-- Concatenate two line lists so that `segJoin` distributes: the last line of
the first list is glued to the first line of the second (their junction has no
newline). -/
def glueLists : List (List Char) → List (List Char) → List (List Char)
  | [], B => B
  | [s], [] => [s]
  | [s], b :: bs => (s ++ b) :: bs
  | s :: t :: ss, B => s :: glueLists (t :: ss) B

/-- The one-subfolder example input: `"01_Alpha"` holding `"metrics.csv"`
(two columns `A,B`, one row `1,2`) and `"plot.png"` (the first four PNG
signature bytes). -/
def alphaFolder : Entry :=
  .dir (str "01_Alpha")
    [ .file (str "metrics.csv") ((str "A,B\n1,2\n").map Char.toNat),
      .file (str "plot.png") [137, 80, 78, 71] ]

/-- The lines of the dynamic middle part (`<h1>` heading, tab bar with one
link, and the single tab-content block) of the document generated for
`alphaFolder`. -/
def alphaMidSegs : List (List Char) := [
  str "<h1>HTML Report</h1><div class=\x27tabs\x27><div class=\"tab\" onclick=\"openTab(event, \x27Alpha\x27)\">Alpha</div></div><div id=\"Alpha\" class=\"tab-content\"><h2>metrics</h2><table border=\"1\" class=\"dataframe table\">",
  str "  <thead>",
  str "    <tr style=\"text-align: right;\">",
  str "      <th>A</th>",
  str "      <th>B</th>",
  str "    </tr>",
  str "  </thead>",
  str "  <tbody>",
  str "    <tr>",
  str "      <td>1</td>",
  str "      <td>2</td>",
  str "    </tr>",
  str "  </tbody>",
  str "</table>",
  str "            <div class=\"plot\">",
  str "                <h3>plot</h3>",
  str "                <img src=\"data:image/png;base64,iVBORw==\" alt=\"plot\">",
  str "            </div>",
  str "            </div>"]

/-- Whether an `Except` value is an error. -/
def isErr {ε α : Type} : Except ε α → Bool
  | .error _ => true
  | .ok _ => false

/-- Some collected CSV file fails to parse, or some collected PNG file fails
to read, in some top-level subdirectory of the input. -/
def hasFailingInput (entries : List Entry) : Prop :=
  ∃ folder ∈ entries, folder.isDir = true ∧
    ((∃ e ∈ sortedCsvs folder, isErr (csvFragment e) = true) ∨
     (∃ e ∈ sortedPngs folder, isErr (plotFragment e) = true))

instance (entries : List Entry) : Decidable (hasFailingInput entries) := by
  unfold hasFailingInput
  infer_instance

/-- Entry equivalence up to the filesystem's enumeration order inside a
directory: same name, same file content, and for directories the same
children up to permutation. -/
def EntryEquiv : Entry → Entry → Prop
  | .file n c, .file n' c' => n = n' ∧ c = c'
  | .dir n cs, .dir n' cs' => n = n' ∧ cs.Perm cs'
  | _, _ => False

/-- Two top-level listings hold identical sets of entries with identical
contents, read in possibly different filesystem enumeration orders at both
levels. -/
def DirsEquiv (es1 es2 : List Entry) : Prop :=
  ∃ mid, es1.Perm mid ∧ List.Forall₂ EntryEquiv mid es2

/-- What every real directory listing satisfies: distinct names at the top
level and distinct child names within every entry. -/
def wellFormedListing (es : List Entry) : Prop :=
  (es.map Entry.name).Nodup ∧
  ∀ e ∈ es, (e.children.map Entry.name).Nodup

instance (es : List Entry) : Decidable (wellFormedListing es) := by
  unfold wellFormedListing
  infer_instance

theorem isSpaceChar_newline : isSpaceChar '\n' = true := by decide

theorem pyStrip_concat_newline (v : List Char) :
    pyStrip (v ++ ['\n']) = pyStrip v := by
  unfold pyStrip dropTrailingSpace
  rw [List.reverse_append]
  simp [List.dropWhile, isSpaceChar_newline]

theorem pyStrip_dotPlusDollar {u r : List Char} (h : dotPlusDollar u = some r) :
    pyStrip r = pyStrip u := by
  unfold dotPlusDollar at h
  by_cases h0 : u = []
  · simp [h0] at h
  · by_cases h1 : '\n' ∈ u
    · rw [if_neg h0, if_pos h1] at h
      by_cases h2 : u.getLast? = some '\n' ∧ u.dropLast ≠ [] ∧ '\n' ∉ u.dropLast
      · rw [if_pos h2] at h
        cases h
        have hu : u.dropLast ++ ['\n'] = u := by
          have := List.dropLast_append_getLast h0
          rwa [List.getLast_eq_iff_getLast?_eq_some h0 |>.mpr h2.1] at this
        calc pyStrip u.dropLast = pyStrip (u.dropLast ++ ['\n']) :=
              (pyStrip_concat_newline _).symm
          _ = pyStrip u := by rw [hu]
      · rw [if_neg h2] at h; cases h
    · rw [if_neg h0, if_neg h1] at h
      cases h
      rfl

theorem noPrefixResult_eq (name : List Char) :
    noPrefixResult name = ([], pyStrip name) := by
  unfold noPrefixResult
  cases h : dotPlusDollar name with
  | none => rfl
  | some r =>
    show ([], pyStrip r) = ([], pyStrip name)
    rw [pyStrip_dotPlusDollar h]

/-- Case analysis of `detect_and_remove_prefix`, linked to the spec regex
`^\d+_.+$`: either the name does not match and the result is
`("", name.strip())`, or it matches and the result is the maximal leading
digit run with its underscore paired with the stripped remainder. -/
theorem detect_eq_cases (name : List Char) :
    (matchesNumUnderscore name = false ∧
      detect_and_remove_prefix name = ([], pyStrip name)) ∨
    (matchesNumUnderscore name = true ∧
      ∃ tail, name.takeWhile Char.isDigit ≠ [] ∧
        name.dropWhile Char.isDigit = '_' :: tail ∧
        detect_and_remove_prefix name =
          (name.takeWhile Char.isDigit ++ ['_'], pyStrip tail)) := by
  unfold detect_and_remove_prefix matchesNumUnderscore
  cases hd : name.dropWhile Char.isDigit with
  | nil =>
    left
    exact ⟨by simp, noPrefixResult_eq name⟩
  | cons c tail =>
    by_cases hc : c = '_'
    · subst hc
      by_cases hds : name.takeWhile Char.isDigit = []
      · left
        refine ⟨by simp [hds], ?_⟩
        show (if name.takeWhile Char.isDigit = [] then noPrefixResult name
              else match dotPlusDollar tail with
                | some r => (name.takeWhile Char.isDigit ++ ['_'], pyStrip r)
                | none => noPrefixResult name) = ([], pyStrip name)
        rw [if_pos hds]
        exact noPrefixResult_eq name
      · cases hdp : dotPlusDollar tail with
        | some r =>
          right
          refine ⟨by simp [hds, hdp], tail, hds, rfl, ?_⟩
          show (if name.takeWhile Char.isDigit = [] then noPrefixResult name
                else match dotPlusDollar tail with
                  | some r => (name.takeWhile Char.isDigit ++ ['_'], pyStrip r)
                  | none => noPrefixResult name) =
              (name.takeWhile Char.isDigit ++ ['_'], pyStrip tail)
          rw [if_neg hds, hdp]
          show (name.takeWhile Char.isDigit ++ ['_'], pyStrip r) =
              (name.takeWhile Char.isDigit ++ ['_'], pyStrip tail)
          rw [pyStrip_dotPlusDollar hdp]
        | none =>
          left
          refine ⟨by simp [hdp], ?_⟩
          show (if name.takeWhile Char.isDigit = [] then noPrefixResult name
                else match dotPlusDollar tail with
                  | some r => (name.takeWhile Char.isDigit ++ ['_'], pyStrip r)
                  | none => noPrefixResult name) = ([], pyStrip name)
          rw [if_neg hds, hdp]
          exact noPrefixResult_eq name
    · left
      constructor
      · have : (match c :: tail with
            | '_' :: tail => (dotPlusDollar tail).isSome
            | _ => false) = false := by
          split
          · next h => cases h; exact absurd rfl hc
          · rfl
        simp [this]
      · have : (match c :: tail with
            | '_' :: tail =>
              if name.takeWhile Char.isDigit = [] then noPrefixResult name
              else
                match dotPlusDollar tail with
                | some r => (name.takeWhile Char.isDigit ++ ['_'], pyStrip r)
                | none => noPrefixResult name
            | _ => noPrefixResult name) = noPrefixResult name := by
          split
          · next h => cases h; exact absurd rfl hc
          · rfl
        rw [this]
        exact noPrefixResult_eq name

/-- C1: for every name matching `^\d+_.+$`, `detect_and_remove_prefix` returns
the leading digit run with its trailing underscore as the prefix and the
remainder trimmed of leading/trailing whitespace as the display name; for
every other name it returns an empty prefix and the trimmed original name.
(The function is total over all character lists, so it raises no exception
for any string input.) -/
theorem detect_prefix_spec (name : List Char) :
    (matchesNumUnderscore name = true →
      detect_and_remove_prefix name =
        (name.takeWhile Char.isDigit ++ ['_'],
         pyStrip (name.dropWhile Char.isDigit).tail)) ∧
    (matchesNumUnderscore name = false →
      detect_and_remove_prefix name = ([], pyStrip name)) := by
  rcases detect_eq_cases name with ⟨hm, he⟩ | ⟨hm, tail, hds, hd, he⟩
  · refine ⟨fun h => ?_, fun _ => he⟩
    rw [hm] at h
    cases h
  · refine ⟨fun _ => ?_, fun h => ?_⟩
    · rw [he, hd]
      rfl
    · rw [hm] at h
      cases h

/-- Witness for C1: the matching name `"01_Alpha"` splits into `("01_", "Alpha")`
and the non-matching name `"plain name"` keeps an empty prefix. -/
theorem detect_prefix_spec_witness :
    detect_and_remove_prefix (str "01_Alpha") =
      ((str "01_Alpha").takeWhile Char.isDigit ++ ['_'],
       pyStrip ((str "01_Alpha").dropWhile Char.isDigit).tail) ∧
    detect_and_remove_prefix (str "plain name") =
      ([], pyStrip (str "plain name")) :=
  ⟨(detect_prefix_spec (str "01_Alpha")).1 (by decide),
   (detect_prefix_spec (str "plain name")).2 (by decide)⟩

/-- C9: for every string, `detect_and_remove_prefix` returns a pair whose
first component is either empty or a digit run followed by exactly one
underscore, is a prefix of the original string, and whose second component
is the rest of the string after that prefix, stripped. -/
theorem detect_prefix_shape (name : List Char) :
    (( detect_and_remove_prefix name).1 = [] ∨
      ∃ ds, ds ≠ [] ∧ (∀ c ∈ ds, c.isDigit = true) ∧
        ( detect_and_remove_prefix name).1 = ds ++ ['_']) ∧
    ( detect_and_remove_prefix name).1 <+: name ∧
    ( detect_and_remove_prefix name).2 =
      pyStrip (name.drop ( detect_and_remove_prefix name).1.length) := by
  rcases detect_eq_cases name with ⟨_, he⟩ | ⟨_, tail, hds, hd, he⟩
  · rw [he]
    refine ⟨Or.inl rfl, List.nil_prefix, ?_⟩
    show pyStrip name = pyStrip (name.drop 0)
    rw [List.drop_zero]
  · rw [he]
    have hname : (name.takeWhile Char.isDigit ++ ['_']) ++ tail = name := by
      rw [List.append_assoc, List.singleton_append, ← hd,
        List.takeWhile_append_dropWhile]
    have h1 : List.drop (name.takeWhile Char.isDigit ++ ['_']).length
        ((name.takeWhile Char.isDigit ++ ['_']) ++ tail) = tail :=
      List.drop_left _ _
    rw [hname] at h1
    refine ⟨Or.inr ⟨name.takeWhile Char.isDigit, hds,
        fun c hc => List.mem_takeWhile_imp hc, rfl⟩, ?_, ?_⟩
    · exact ⟨tail, hname⟩
    · show pyStrip tail =
        pyStrip (name.drop (name.takeWhile Char.isDigit ++ ['_']).length)
      rw [h1]

/-- The comparison used by the source's sort coincides with the ordering the
spec describes. -/
theorem entryLE_iff_specOrder (a b : Entry) : entryLE a b ↔ specOrder a b := by
  unfold entryLE keyLE extract_key specOrder
  cases ha : sortKeyNum a.name with
  | top =>
    cases hb : sortKeyNum b.name with
    | top => simp [lt_irrefl]
    | coe n => simp
  | coe m =>
    cases hb : sortKeyNum b.name with
    | top => simp [WithTop.coe_lt_top]
    | coe n => simp [WithTop.coe_lt_coe, WithTop.coe_inj]

/-- C2: `sort_files_and_folders` imposes a total deterministic order: the
output is a permutation of the input, pairwise ordered by the spec order
(prefixed entries first by ascending value with name tie-breaks, then
unprefixed entries by name), sorting is idempotent, and the spec order is
total. -/
theorem sort_spec (items : List Entry) :
    List.Perm (sort_files_and_folders items) items ∧
    List.Pairwise specOrder (sort_files_and_folders items) ∧
    sort_files_and_folders (sort_files_and_folders items) =
      sort_files_and_folders items ∧
    ∀ a b : Entry, specOrder a b ∨ specOrder b a := by
  refine ⟨List.perm_insertionSort entryLE items, ?_, ?_, ?_⟩
  · exact (List.sorted_insertionSort entryLE items).imp
      fun h => (entryLE_iff_specOrder _ _).1 h
  · exact List.Sorted.insertionSort_eq (List.sorted_insertionSort entryLE items)
  · intro a b
    rcases IsTotal.total (r := entryLE) a b with h | h
    · exact Or.inl ((entryLE_iff_specOrder _ _).1 h)
    · exact Or.inr ((entryLE_iff_specOrder _ _).1 h)

theorem b64CharVal_alpha : ∀ n < 64, b64CharVal (b64AlphaChar n) = some n := by
  decide

theorem b64Alpha_ne_pad : ∀ n < 64, b64AlphaChar n ≠ '=' := by
  decide

/-- Decoding inverts encoding, chunk by chunk. -/
theorem b64decode_encode :
    ∀ bs : List Nat, (∀ b ∈ bs, b < 256) →
      b64decode (b64encode bs) = some bs
  | [], _ => rfl
  | [a], h => by
    have ha : a < 256 := h a (by simp)
    have h1 : b64CharVal (b64AlphaChar (a / 4)) = some (a / 4) :=
      b64CharVal_alpha _ (by omega)
    have h2 : b64CharVal (b64AlphaChar (a % 4 * 16)) = some (a % 4 * 16) :=
      b64CharVal_alpha _ (by omega)
    have hval : a / 4 * 4 + a % 4 * 16 / 16 = a := by omega
    simp [b64encode, b64decode, h1, h2, hval]
    omega
  | [a, b], h => by
    have ha : a < 256 := h a (by simp)
    have hb : b < 256 := h b (by simp)
    have h1 : b64CharVal (b64AlphaChar (a / 4)) = some (a / 4) :=
      b64CharVal_alpha _ (by omega)
    have h2 : b64CharVal (b64AlphaChar (a % 4 * 16 + b / 16)) =
        some (a % 4 * 16 + b / 16) := b64CharVal_alpha _ (by omega)
    have h3 : b64CharVal (b64AlphaChar (b % 16 * 4)) = some (b % 16 * 4) :=
      b64CharVal_alpha _ (by omega)
    have hy : b64AlphaChar (b % 16 * 4) ≠ '=' := b64Alpha_ne_pad _ (by omega)
    have hv1 : a / 4 * 4 + (a % 4 * 16 + b / 16) / 16 = a := by omega
    have hv2 : (a % 4 * 16 + b / 16) % 16 * 16 + b % 16 * 4 / 4 = b := by
      omega
    simp [b64encode, b64decode, h1, h2, h3, hy, hv1, hv2]
    omega
  | a :: b :: c :: rest, h => by
    have ha : a < 256 := h a (by simp)
    have hb : b < 256 := h b (by simp)
    have hc : c < 256 := h c (by simp)
    have ih : b64decode (b64encode rest) = some rest :=
      b64decode_encode rest (fun x hx => h x (by simp [hx]))
    have h1 : b64CharVal (b64AlphaChar (a / 4)) = some (a / 4) :=
      b64CharVal_alpha _ (by omega)
    have h2 : b64CharVal (b64AlphaChar (a % 4 * 16 + b / 16)) =
        some (a % 4 * 16 + b / 16) := b64CharVal_alpha _ (by omega)
    have h3 : b64CharVal (b64AlphaChar (b % 16 * 4 + c / 64)) =
        some (b % 16 * 4 + c / 64) := b64CharVal_alpha _ (by omega)
    have h4 : b64CharVal (b64AlphaChar (c % 64)) = some (c % 64) :=
      b64CharVal_alpha _ (by omega)
    have hy : b64AlphaChar (b % 16 * 4 + c / 64) ≠ '=' :=
      b64Alpha_ne_pad _ (by omega)
    have hz : b64AlphaChar (c % 64) ≠ '=' := b64Alpha_ne_pad _ (by omega)
    have hv1 : a / 4 * 4 + (a % 4 * 16 + b / 16) / 16 = a := by omega
    have hv2 : (a % 4 * 16 + b / 16) % 16 * 16 +
        (b % 16 * 4 + c / 64) / 4 = b := by omega
    have hv3 : (b % 16 * 4 + c / 64) % 4 * 64 + c % 64 = c := by omega
    simp [b64encode, b64decode, h1, h2, h3, h4, hy, hz, ih, hv1, hv2, hv3]

/-- C3: base64-decoding the string produced by `encode_image_to_base64` on a
file's bytes yields the original bytes. -/
theorem encode_image_roundtrip (bs : List Nat) (h : ∀ b ∈ bs, b < 256) :
    b64decode (encode_image_to_base64 bs) = some bs :=
  b64decode_encode bs h

/-- Witness for C3 at the four PNG signature bytes. -/
theorem encode_image_roundtrip_witness :
    (∀ b ∈ [137, 80, 78, 71], b < 256) ∧
    b64decode (encode_image_to_base64 [137, 80, 78, 71]) =
      some [137, 80, 78, 71] :=
  ⟨by decide, encode_image_roundtrip [137, 80, 78, 71] (by decide)⟩

set_option maxRecDepth 8000 in
/-- The segmented template is character-for-character the monolithic string
literal of the source. -/
theorem get_html_template_eq :
    get_html_template =
      str "\n    <html>\n    <head>\n        <title>HTML Report</title>\n        <style>\n            body \x7b font-family: Arial, sans-serif; margin: 0; padding: 20px; background-color: #f4f4f4; \x7d\n            .container \x7b max-width: 1000px; margin: auto; background: white; padding: 20px; box-shadow: 0 0 10px rgba(0, 0, 0, 0.1); \x7d\n            h1 \x7b text-align: center; color: #333; \x7d\n            h2 \x7b border-bottom: 2px solid #4CAF50; color: #4CAF50; padding-bottom: 5px; \x7d\n            table \x7b width: 100%; border-collapse: collapse; margin: 20px 0; \x7d\n            table, th, td \x7b border: 1px solid #ddd; \x7d\n            th, td \x7b padding: 8px; text-align: left; \x7d\n            th \x7b background-color: #4CAF50; color: white; \x7d\n            .plot \x7b text-align: center; margin: 20px 0; \x7d\n            .plot img \x7b max-width: 100%; height: auto; \x7d\n            .tabs \x7b display: flex; margin-bottom: 20px; cursor: pointer; justify-content: space-around; \x7d\n            .tab \x7b padding: 10px; background-color: #4CAF50; color: white; border-radius: 5px 5px 0 0; flex-grow: 1; text-align: center; margin: 0 5px; \x7d\n            .tab.active-tab \x7b background-color: #333; \x7d\n            .tab-content \x7b display: none; padding: 20px; border: 1px solid #ddd; border-top: none; background-color: white; \x7d\n            .tab-content.active-content \x7b display: block; \x7d\n        </style>\n    </head>\n    <body>\n        <div class=\"container\">\n    " := by
  rfl

set_option maxRecDepth 8000 in
/-- The segmented closing is character-for-character the monolithic string
literal of the source. -/
theorem get_html_closing_eq :
    get_html_closing =
      str "\n        </div>\n        <script>\n            function openTab(evt, tabName) \x7b\n                var i, tabcontent, tablinks;\n                tabcontent = document.getElementsByClassName(\"tab-content\");\n                for (i = 0; i < tabcontent.length; i++) \x7b\n                    tabcontent[i].style.display = \"none\";\n                \x7d\n                tablinks = document.getElementsByClassName(\"tab\");\n                for (i = 0; i < tablinks.length; i++) \x7b\n                    tablinks[i].className = tablinks[i].className.replace(\" active-tab\", \"\");\n                \x7d\n                document.getElementById(tabName).style.display = \"block\";\n                evt.currentTarget.className += \" active-tab\";\n            \x7d\n            document.addEventListener(\"DOMContentLoaded\", function() \x7b\n                document.querySelector(\".tab\").click();\n            \x7d);\n        </script>\n    </body>\n    </html>\n    " := by
  rfl

theorem isPrefixOf_append_cons_newline {pat : List Char} (hp : '\n' ∉ pat) :
    ∀ a b : List Char, pat.isPrefixOf (a ++ '\n' :: b) = pat.isPrefixOf a := by
  induction pat with
  | nil => intro a b; cases a <;> rfl
  | cons p ps ih =>
    intro a b
    have hpn : p ≠ '\n' := fun h => hp (h ▸ List.mem_cons_self p ps)
    have hps : '\n' ∉ ps := fun h => hp (List.mem_cons_of_mem p h)
    cases a with
    | nil =>
      simp only [List.nil_append, List.isPrefixOf]
      rw [Bool.and_eq_false_iff]
      left
      exact beq_eq_false_iff_ne.mpr hpn
    | cons c a' =>
      simp only [List.cons_append, List.isPrefixOf, List.append_eq]
      rw [ih hps a' b]

theorem countSubstr_append_newline {pat : List Char} (hp : '\n' ∉ pat)
    (hne : pat ≠ []) (b : List Char) :
    ∀ a : List Char, countSubstr pat (a ++ '\n' :: b) =
      countSubstr pat a + countSubstr pat b := by
  intro a
  induction a with
  | nil =>
    simp only [List.nil_append, countSubstr]
    have h0 : pat.isPrefixOf ('\n' :: b) = false := by
      have := isPrefixOf_append_cons_newline hp [] b
      simpa [List.isPrefixOf] using this
    have h1 : pat.isEmpty = false := by
      cases pat with
      | nil => exact absurd rfl hne
      | cons _ _ => rfl
    rw [h0, h1]
  | cons c a' ih =>
    have : (c :: a') ++ '\n' :: b = c :: (a' ++ '\n' :: b) := rfl
    rw [this]
    simp only [countSubstr]
    rw [show c :: (a' ++ '\n' :: b) = (c :: a') ++ '\n' :: b from rfl,
      isPrefixOf_append_cons_newline hp (c :: a') b, ih]
    omega

theorem countSubstr_segJoin {pat : List Char} (hp : '\n' ∉ pat)
    (hne : pat ≠ []) :
    ∀ segs : List (List Char),
      countSubstr pat (segJoin segs) = (segs.map (countSubstr pat)).sum
  | [] => by
    have h1 : pat.isEmpty = false := by
      cases pat with
      | nil => exact absurd rfl hne
      | cons _ _ => rfl
    simp [segJoin, countSubstr, h1]
  | [s] => by simp [segJoin]
  | s :: t :: ss => by
    show countSubstr pat (s ++ '\n' :: segJoin (t :: ss)) = _
    rw [countSubstr_append_newline hp hne _ s,
      countSubstr_segJoin hp hne (t :: ss)]
    simp

theorem segJoin_cons {M : List (List Char)} (h : M ≠ []) (l : List Char) :
    segJoin (l :: M) = l ++ '\n' :: segJoin M := by
  cases M with
  | nil => exact absurd rfl h
  | cons t ss => rfl

theorem glueLists_ne_nil {A : List (List Char)} (hA : A ≠ [])
    (B : List (List Char)) : glueLists A B ≠ [] := by
  cases A with
  | nil => exact absurd rfl hA
  | cons s A' =>
    cases A' with
    | nil =>
      cases B with
      | nil => simp [glueLists]
      | cons b bs => simp [glueLists]
    | cons t ss => simp [glueLists]

theorem segJoin_glue (B : List (List Char)) :
    ∀ A : List (List Char), A ≠ [] →
      segJoin A ++ segJoin B = segJoin (glueLists A B)
  | [], hA => absurd rfl hA
  | [s], _ => by
    cases B with
    | nil => simp [glueLists, segJoin]
    | cons b bs =>
      cases bs with
      | nil => simp [glueLists, segJoin]
      | cons b2 bs' =>
        show s ++ (b ++ '\n' :: segJoin (b2 :: bs')) =
          segJoin ((s ++ b) :: b2 :: bs')
        rw [segJoin_cons (by simp) (s ++ b), List.append_assoc]
  | s :: t :: ss, _ => by
    show (s ++ '\n' :: segJoin (t :: ss)) ++ segJoin B =
      segJoin (s :: glueLists (t :: ss) B)
    rw [segJoin_cons (glueLists_ne_nil (by simp) B) s,
      ← segJoin_glue B (t :: ss) (by simp), List.append_assoc]
    rfl

/-- C5: a missing or non-directory input path raises the descriptive
`ValueError` immediately, before any work, and any pre-existing output file
is left unchanged. -/
theorem invalid_input_spec (p : List Char) (t : PathTarget)
    (prev : Option (List Char)) (h : t.isDirTarget = false) :
    generate_html_report p t =
      .error (p ++ str " is not a valid directory.") ∧
    writeReport p t prev = prev := by
  cases t with
  | missing => exact ⟨rfl, rfl⟩
  | file c => exact ⟨rfl, rfl⟩
  | dir es => simp [PathTarget.isDirTarget] at h

/-- Witness for C5 at a missing path with an existing old report file. -/
theorem invalid_input_spec_witness :
    generate_html_report (str "nope") .missing =
      .error (str "nope" ++ str " is not a valid directory.") ∧
    writeReport (str "nope") .missing (some (str "old")) = some (str "old") :=
  invalid_input_spec (str "nope") .missing (some (str "old")) (by decide)

set_option maxRecDepth 8000 in
/-- C6: generating from an empty input directory does not raise and produces
a complete HTML document (one `<html>` and one `</html>`) whose tab bar is
present but empty and which contains no tab links and no tab-content
blocks. -/
theorem empty_dir_report (p : List Char) :
    ∃ doc, generate_html_report p (.dir []) = .ok doc ∧
      countSubstr (str "<html>") doc = 1 ∧
      countSubstr (str "</html>") doc = 1 ∧
      countSubstr (str "<div class=\x27tabs\x27></div>") doc = 1 ∧
      countSubstr (str "<div class=\"tab\" ") doc = 0 ∧
      countSubstr (str "class=\"tab-content\"") doc = 0 := by
  refine ⟨segJoin (glueLists tplSegs
      (str "<h1>HTML Report</h1><div class=\x27tabs\x27></div>" ::
        closingSegs.tail)), ?_, ?_, ?_, ?_, ?_, ?_⟩
  · have h1 : generate_html_report p (.dir []) =
        .ok (get_html_template ++
          str "<h1>HTML Report</h1><div class=\x27tabs\x27>" ++ [] ++
          str "</div>" ++ [] ++ get_html_closing) := rfl
    have h2 : get_html_closing = '\n' :: segJoin closingSegs.tail := rfl
    have h3 : str "<h1>HTML Report</h1><div class=\x27tabs\x27>" ++
        (str "</div>" ++ get_html_closing) =
        segJoin (str "<h1>HTML Report</h1><div class=\x27tabs\x27></div>" ::
          closingSegs.tail) := by
      rw [h2, segJoin_cons (by decide) _, ← List.append_assoc]
      rfl
    have h4 : get_html_template ++
          str "<h1>HTML Report</h1><div class=\x27tabs\x27>" ++ [] ++
          str "</div>" ++ [] ++ get_html_closing
        = segJoin (glueLists tplSegs
            (str "<h1>HTML Report</h1><div class=\x27tabs\x27></div>" ::
              closingSegs.tail)) :=
      calc get_html_template ++
            str "<h1>HTML Report</h1><div class=\x27tabs\x27>" ++ [] ++
            str "</div>" ++ [] ++ get_html_closing
          = get_html_template ++
              (str "<h1>HTML Report</h1><div class=\x27tabs\x27>" ++
                (str "</div>" ++ get_html_closing)) := by
            simp [List.append_assoc]
        _ = get_html_template ++
              segJoin (str "<h1>HTML Report</h1><div class=\x27tabs\x27></div>" ::
                closingSegs.tail) := by rw [h3]
        _ = segJoin (glueLists tplSegs
              (str "<h1>HTML Report</h1><div class=\x27tabs\x27></div>" ::
                closingSegs.tail)) := segJoin_glue _ tplSegs (by decide)
    exact h1.trans (congrArg Except.ok h4)
  · rw [countSubstr_segJoin (by decide) (by decide)]
    decide
  · rw [countSubstr_segJoin (by decide) (by decide)]
    decide
  · rw [countSubstr_segJoin (by decide) (by decide)]
    decide
  · rw [countSubstr_segJoin (by decide) (by decide)]
    decide
  · rw [countSubstr_segJoin (by decide) (by decide)]
    decide

set_option maxRecDepth 8000 in
/-- The document generated for the `alphaFolder` example, with the link and
tab-content strings fully evaluated. -/
theorem alpha_generate_eq (p : List Char) :
    generate_html_report p (.dir [alphaFolder]) =
      .ok (get_html_template ++
        str "<h1>HTML Report</h1><div class=\x27tabs\x27>" ++
        str "<div class=\"tab\" onclick=\"openTab(event, \x27Alpha\x27)\">Alpha</div>" ++
        str "</div>" ++
        str "<div id=\"Alpha\" class=\"tab-content\"><h2>metrics</h2><table border=\"1\" class=\"dataframe table\">\n  <thead>\n    <tr style=\"text-align: right;\">\n      <th>A</th>\n      <th>B</th>\n    </tr>\n  </thead>\n  <tbody>\n    <tr>\n      <td>1</td>\n      <td>2</td>\n    </tr>\n  </tbody>\n</table>\n            <div class=\"plot\">\n                <h3>plot</h3>\n                <img src=\"data:image/png;base64,iVBORw==\" alt=\"plot\">\n            </div>\n            </div>" ++
        get_html_closing) := rfl

set_option maxRecDepth 8000 in
/-- The middle part of the `alphaFolder` document is the newline-join of its
lines. -/
theorem alpha_mid_eq :
    str "<h1>HTML Report</h1><div class=\x27tabs\x27>" ++
      (str "<div class=\"tab\" onclick=\"openTab(event, \x27Alpha\x27)\">Alpha</div>" ++
        (str "</div>" ++
          str "<div id=\"Alpha\" class=\"tab-content\"><h2>metrics</h2><table border=\"1\" class=\"dataframe table\">\n  <thead>\n    <tr style=\"text-align: right;\">\n      <th>A</th>\n      <th>B</th>\n    </tr>\n  </thead>\n  <tbody>\n    <tr>\n      <td>1</td>\n      <td>2</td>\n    </tr>\n  </tbody>\n</table>\n            <div class=\"plot\">\n                <h3>plot</h3>\n                <img src=\"data:image/png;base64,iVBORw==\" alt=\"plot\">\n            </div>\n            </div>")) =
    segJoin alphaMidSegs := rfl

set_option maxRecDepth 8000 in
/-- C7: for an input directory holding exactly the subfolder `"01_Alpha"`
with one two-column one-row CSV and one PNG, the document has exactly one tab
link, labeled `Alpha`; exactly one table, whose header row consists of the
CSV's two column names `A` and `B` and nothing else (no index column); and
exactly one `img` element, whose `src` begins with
`data:image/png;base64,`. -/
theorem alpha_report (p : List Char) :
    ∃ doc, generate_html_report p (.dir [alphaFolder]) = .ok doc ∧
      countSubstr (str "<div class=\"tab\" onclick=") doc = 1 ∧
      countSubstr (str "<div class=\"tab\" onclick=\"openTab(event, \x27Alpha\x27)\">Alpha</div>") doc = 1 ∧
      countSubstr (str "<table") doc = 1 ∧
      countSubstr (str "<tr style=\"text-align: right;\">") doc = 1 ∧
      countSubstr (str "<th>") doc = 2 ∧
      countSubstr (str "<th>A</th>") doc = 1 ∧
      countSubstr (str "<th>B</th>") doc = 1 ∧
      countSubstr (str "<img ") doc = 1 ∧
      countSubstr (str "<img src=\"data:image/png;base64,") doc = 1 := by
  refine ⟨segJoin (glueLists tplSegs (glueLists alphaMidSegs closingSegs)),
    ?_, ?_, ?_, ?_, ?_, ?_, ?_, ?_, ?_, ?_⟩
  · have h4 : get_html_template ++
        str "<h1>HTML Report</h1><div class=\x27tabs\x27>" ++
        str "<div class=\"tab\" onclick=\"openTab(event, \x27Alpha\x27)\">Alpha</div>" ++
        str "</div>" ++
        str "<div id=\"Alpha\" class=\"tab-content\"><h2>metrics</h2><table border=\"1\" class=\"dataframe table\">\n  <thead>\n    <tr style=\"text-align: right;\">\n      <th>A</th>\n      <th>B</th>\n    </tr>\n  </thead>\n  <tbody>\n    <tr>\n      <td>1</td>\n      <td>2</td>\n    </tr>\n  </tbody>\n</table>\n            <div class=\"plot\">\n                <h3>plot</h3>\n                <img src=\"data:image/png;base64,iVBORw==\" alt=\"plot\">\n            </div>\n            </div>" ++
        get_html_closing =
        segJoin (glueLists tplSegs (glueLists alphaMidSegs closingSegs)) := by
      rw [List.append_assoc, List.append_assoc, List.append_assoc,
        List.append_assoc]
      rw [show str "<h1>HTML Report</h1><div class=\x27tabs\x27>" ++
          (str "<div class=\"tab\" onclick=\"openTab(event, \x27Alpha\x27)\">Alpha</div>" ++
            (str "</div>" ++
              (str "<div id=\"Alpha\" class=\"tab-content\"><h2>metrics</h2><table border=\"1\" class=\"dataframe table\">\n  <thead>\n    <tr style=\"text-align: right;\">\n      <th>A</th>\n      <th>B</th>\n    </tr>\n  </thead>\n  <tbody>\n    <tr>\n      <td>1</td>\n      <td>2</td>\n    </tr>\n  </tbody>\n</table>\n            <div class=\"plot\">\n                <h3>plot</h3>\n                <img src=\"data:image/png;base64,iVBORw==\" alt=\"plot\">\n            </div>\n            </div>" ++
                get_html_closing))) =
          segJoin alphaMidSegs ++ segJoin closingSegs from by
        rw [← alpha_mid_eq]
        simp [get_html_closing, List.append_assoc]]
      rw [segJoin_glue closingSegs alphaMidSegs (by decide)]
      exact segJoin_glue (glueLists alphaMidSegs closingSegs) tplSegs (by decide)
    exact (alpha_generate_eq p).trans (congrArg Except.ok h4)
  · rw [countSubstr_segJoin (by decide) (by decide)]
    decide
  · rw [countSubstr_segJoin (by decide) (by decide)]
    decide
  · rw [countSubstr_segJoin (by decide) (by decide)]
    decide
  · rw [countSubstr_segJoin (by decide) (by decide)]
    decide
  · rw [countSubstr_segJoin (by decide) (by decide)]
    decide
  · rw [countSubstr_segJoin (by decide) (by decide)]
    decide
  · rw [countSubstr_segJoin (by decide) (by decide)]
    decide
  · rw [countSubstr_segJoin (by decide) (by decide)]
    decide
  · rw [countSubstr_segJoin (by decide) (by decide)]
    decide

theorem isErr_iff {ε α : Type} (x : Except ε α) :
    isErr x = true ↔ ∃ m, x = .error m := by
  cases x with
  | error m => simp [isErr]
  | ok a => simp [isErr]

theorem concatFragments_error (f : Entry → Except (List Char) (List Char)) :
    ∀ es : List Entry, (∃ e ∈ es, isErr (f e) = true) →
      ∃ m, concatFragments f es = .error m := by
  intro es h
  induction es with
  | nil => simp at h
  | cons e es ih =>
    cases hfe : f e with
    | error m =>
      refine ⟨m, ?_⟩
      unfold concatFragments
      rw [hfe]
    | ok s =>
      rcases h with ⟨e', he', herr⟩
      rcases List.mem_cons.1 he' with rfl | hmem
      · rw [hfe] at herr
        simp [isErr] at herr
      · rcases ih ⟨e', hmem, herr⟩ with ⟨m, hm⟩
        refine ⟨m, ?_⟩
        unfold concatFragments
        rw [hfe, hm]

theorem processFolder_error {folder : Entry}
    (h : (∃ e ∈ sortedCsvs folder, isErr (csvFragment e) = true) ∨
      (∃ e ∈ sortedPngs folder, isErr (plotFragment e) = true)) :
    ∃ m, processFolder folder = .error m := by
  cases hcsv : concatFragments csvFragment (sortedCsvs folder) with
  | error m =>
    refine ⟨m, ?_⟩
    unfold processFolder
    rw [hcsv]
  | ok s =>
    rcases h with hc | hpng
    · rcases concatFragments_error csvFragment _ hc with ⟨m, hm⟩
      rw [hcsv] at hm
      cases hm
    · rcases concatFragments_error plotFragment _ hpng with ⟨m, hm⟩
      refine ⟨m, ?_⟩
      unfold processFolder
      rw [hcsv, hm]

theorem goFolders_error :
    ∀ es : List Entry,
      (∃ e ∈ es, e.isDir = true ∧ isErr (processFolder e) = true) →
      ∃ m, goFolders es = .error m := by
  intro es h
  induction es with
  | nil => simp at h
  | cons e es ih =>
    by_cases hd : e.isDir = true
    · cases hpf : processFolder e with
      | error m =>
        refine ⟨m, ?_⟩
        unfold goFolders
        rw [if_pos hd, hpf]
      | ok lc =>
        rcases h with ⟨e', he', hde', herr⟩
        rcases List.mem_cons.1 he' with rfl | hmem
        · rw [hpf] at herr
          simp [isErr] at herr
        · rcases ih ⟨e', hmem, hde', herr⟩ with ⟨m, hm⟩
          refine ⟨m, ?_⟩
          unfold goFolders
          rw [if_pos hd, hpf, hm]
    · rcases h with ⟨e', he', hde', herr⟩
      rcases List.mem_cons.1 he' with rfl | hmem
      · exact absurd hde' hd
      · rcases ih ⟨e', hmem, hde', herr⟩ with ⟨m, hm⟩
        refine ⟨m, ?_⟩
        unfold goFolders
        rw [if_neg hd, hm]

/-- C4: report generation is all-or-nothing.  If parsing any collected CSV or
reading any collected PNG fails, the error propagates out of
`generate_html_report` and the output file state is unchanged (any
pre-existing file is untouched); if generation succeeds, the complete
document is written. -/
theorem all_or_nothing (p : List Char) (entries : List Entry)
    (prev : Option (List Char)) :
    (hasFailingInput entries →
      (∃ msg, generate_html_report p (.dir entries) = .error msg) ∧
      writeReport p (.dir entries) prev = prev) ∧
    (∀ doc, generate_html_report p (.dir entries) = .ok doc →
      writeReport p (.dir entries) prev = some doc) := by
  constructor
  · intro h
    rcases h with ⟨folder, hmem, hdir, hbad⟩
    rcases processFolder_error hbad with ⟨m, hpf⟩
    have hsortmem : folder ∈ sort_files_and_folders entries := by
      unfold sort_files_and_folders
      rw [List.mem_insertionSort]
      exact hmem
    rcases goFolders_error _ ⟨folder, hsortmem, hdir, by rw [hpf]; rfl⟩
      with ⟨msg, hgo⟩
    have hgen : generate_html_report p (.dir entries) = .error msg := by
      simp only [generate_html_report]
      rw [hgo]
    refine ⟨⟨msg, hgen⟩, ?_⟩
    unfold writeReport
    rw [hgen]
  · intro doc hok
    unfold writeReport
    rw [hok]

/-- Witness for C4: a folder holding an empty CSV (pandas `EmptyDataError`)
makes the run fail and leaves the old output in place, while an empty input
directory succeeds and writes the complete document. -/
theorem all_or_nothing_witness :
    hasFailingInput [.dir (str "01_Bad") [.file (str "data.csv") []]] ∧
    writeReport (str "input")
      (.dir [.dir (str "01_Bad") [.file (str "data.csv") []]])
      (some (str "old")) = some (str "old") ∧
    writeReport (str "input") (.dir []) none =
      some (get_html_template ++
        str "<h1>HTML Report</h1><div class=\x27tabs\x27>" ++ [] ++
        str "</div>" ++ [] ++ get_html_closing) :=
  ⟨by decide,
   ((all_or_nothing (str "input") _ (some (str "old"))).1 (by decide)).2,
   (all_or_nothing (str "input") [] none).2 _ rfl⟩

theorem orderedInsert_head {a : Entry} :
    ∀ M : List Entry, (∀ c ∈ M, entryLE a c) →
      M.orderedInsert entryLE a = a :: M
  | [], _ => rfl
  | c :: M', h => by
    unfold List.orderedInsert
    rw [if_pos (h c (List.mem_cons_self c M'))]

theorem orderedInsert_cons_of_not_le {a b : Entry} (l : List Entry)
    (h : ¬ entryLE a b) :
    List.orderedInsert entryLE a (b :: l) =
      b :: List.orderedInsert entryLE a l :=
  if_neg h

theorem filter_orderedInsert_neg (p : Entry → Bool) {a : Entry}
    (hpa : ¬ p a = true) :
    ∀ L : List Entry, (L.orderedInsert entryLE a).filter p = L.filter p
  | [] => by
    rw [List.orderedInsert_nil, List.filter_cons_of_neg hpa]
  | b :: L' => by
    by_cases hr : entryLE a b
    · rw [List.orderedInsert_of_le entryLE _ hr,
        List.filter_cons_of_neg hpa]
    · rw [orderedInsert_cons_of_not_le L' hr]
      by_cases hpb : p b = true
      · rw [List.filter_cons_of_pos hpb, List.filter_cons_of_pos hpb,
          filter_orderedInsert_neg p hpa L']
      · rw [List.filter_cons_of_neg hpb, List.filter_cons_of_neg hpb,
          filter_orderedInsert_neg p hpa L']

theorem filter_orderedInsert_pos (p : Entry → Bool) {a : Entry}
    (hpa : p a = true) :
    ∀ L : List Entry, List.Sorted entryLE L →
      (L.orderedInsert entryLE a).filter p =
        (L.filter p).orderedInsert entryLE a
  | [], _ => by
    rw [List.orderedInsert_nil, List.filter_cons_of_pos hpa,
      List.filter_nil, List.orderedInsert_nil]
  | b :: L', hs => by
    have hs' : List.Sorted entryLE L' := hs.of_cons
    have hbL' : ∀ c ∈ L', entryLE b c := List.rel_of_sorted_cons hs
    by_cases hr : entryLE a b
    · rw [List.orderedInsert_of_le entryLE _ hr,
        List.filter_cons_of_pos hpa]
      by_cases hpb : p b = true
      · rw [List.filter_cons_of_pos hpb,
          List.orderedInsert_of_le entryLE _ hr]
      · rw [List.filter_cons_of_neg hpb,
          orderedInsert_head (L'.filter p) (fun c hc =>
            IsTrans.trans _ _ _ hr (hbL' c (List.mem_of_mem_filter hc)))]
    · rw [orderedInsert_cons_of_not_le L' hr]
      by_cases hpb : p b = true
      · rw [List.filter_cons_of_pos hpb, List.filter_cons_of_pos hpb,
          orderedInsert_cons_of_not_le _ hr,
          filter_orderedInsert_pos p hpa L' hs']
      · rw [List.filter_cons_of_neg hpb, List.filter_cons_of_neg hpb,
          filter_orderedInsert_pos p hpa L' hs']

theorem insertionSort_filter (p : Entry → Bool) :
    ∀ l : List Entry,
      List.insertionSort entryLE (l.filter p) =
        (List.insertionSort entryLE l).filter p
  | [] => rfl
  | a :: l => by
    by_cases hpa : p a = true
    · rw [List.filter_cons_of_pos hpa]
      show List.orderedInsert entryLE a
          (List.insertionSort entryLE (l.filter p)) =
        (List.orderedInsert entryLE a (List.insertionSort entryLE l)).filter p
      rw [insertionSort_filter p l,
        filter_orderedInsert_pos p hpa _ (List.sorted_insertionSort entryLE l)]
    · rw [List.filter_cons_of_neg hpa]
      show List.insertionSort entryLE (l.filter p) =
        (List.orderedInsert entryLE a (List.insertionSort entryLE l)).filter p
      rw [insertionSort_filter p l, filter_orderedInsert_neg p hpa]

theorem goFolders_filter : ∀ es : List Entry,
    goFolders es = goFolders (es.filter Entry.isDir)
  | [] => rfl
  | e :: es => by
    by_cases hd : e.isDir = true
    · rw [List.filter_cons_of_pos hd]
      show goFolders (e :: es) = goFolders (e :: es.filter Entry.isDir)
      simp only [goFolders]
      rw [if_pos hd, if_pos hd]
      cases hpf : processFolder e with
      | error m => rfl
      | ok lc =>
        cases lc with
        | mk link content => rw [goFolders_filter es]
    · rw [List.filter_cons_of_neg hd]
      show goFolders (e :: es) = goFolders (es.filter Entry.isDir)
      simp only [goFolders]
      rw [if_neg hd, goFolders_filter es]

theorem concatFragments_ok (f : Entry → Except (List Char) (List Char)) :
    ∀ (es : List Entry) (s : List Char), concatFragments f es = .ok s →
      ∃ frs, List.Forall₂ (fun e fr => f e = .ok fr) es frs ∧ s = frs.flatten
  | [], s, h => by
    refine ⟨[], List.Forall₂.nil, ?_⟩
    cases h
    rfl
  | e :: es, s, h => by
    revert h
    unfold concatFragments
    cases hfe : f e with
    | error m => intro h; cases h
    | ok t =>
      cases hrest : concatFragments f es with
      | error m => intro h; cases h
      | ok u =>
        intro h
        cases h
        rcases concatFragments_ok f es u hrest with ⟨frs, hall, hu⟩
        exact ⟨t :: frs, List.Forall₂.cons hfe hall, by rw [hu]; rfl⟩

/-- C8: document assembly.  Non-directory entries at the top level contribute
nothing (generation over the input equals generation over only its directory
entries), and every processed subdirectory yields a tab link for its display
name, a tab identifier equal to the display name with every space replaced by
an underscore and no other character changed, and a tab-content block that
holds all rendered CSV tables (in sorted order) before all embedded images
(in sorted order). -/
theorem assembly_spec (p : List Char) :
    (∀ es : List Entry,
      generate_html_report p (.dir es) =
        generate_html_report p (.dir (es.filter Entry.isDir))) ∧
    (∀ folder link content, folder.isDir = true →
      processFolder folder = .ok (link, content) →
      link = tabLink folder.name ∧
      tabId folder.name = (tabName folder.name).map
        (fun ch => if ch = ' ' then '_' else ch) ∧
      ∃ csvFrs pngFrs,
        List.Forall₂ (fun e fr => csvFragment e = .ok fr)
          (sortedCsvs folder) csvFrs ∧
        List.Forall₂ (fun e fr => plotFragment e = .ok fr)
          (sortedPngs folder) pngFrs ∧
        content = str "<div id=\"" ++ tabId folder.name ++
          str "\" class=\"tab-content\">" ++ csvFrs.flatten ++
          pngFrs.flatten ++ str "</div>") := by
  constructor
  · intro es
    simp only [generate_html_report]
    rw [show sort_files_and_folders (es.filter Entry.isDir) =
        (sort_files_and_folders es).filter Entry.isDir from
      insertionSort_filter Entry.isDir es]
    rw [← goFolders_filter]
  · intro folder link content _ hpf
    revert hpf
    unfold processFolder
    cases hcsv : concatFragments csvFragment (sortedCsvs folder) with
    | error m => intro h; cases h
    | ok csvPart =>
      cases hpng : concatFragments plotFragment (sortedPngs folder) with
      | error m => intro h; cases h
      | ok pngPart =>
        intro h
        injection h with h1
        injection h1 with hl hc
        rcases concatFragments_ok csvFragment _ _ hcsv with ⟨csvFrs, hall1, hs1⟩
        rcases concatFragments_ok plotFragment _ _ hpng with ⟨pngFrs, hall2, hs2⟩
        refine ⟨hl.symm, rfl, csvFrs, pngFrs, hall1, hall2, ?_⟩
        rw [← hc, hs1, hs2]

set_option maxRecDepth 8000 in
/-- Witness for C8: the filter part at a mixed top level, and the
decomposition part at the `alphaFolder` example. -/
theorem assembly_spec_witness :
    generate_html_report (str "x")
        (.dir [.file (str "notes.txt") [], alphaFolder]) =
      generate_html_report (str "x")
        (.dir ([.file (str "notes.txt") [], alphaFolder].filter
          Entry.isDir)) ∧
    (str "<div class=\"tab\" onclick=\"openTab(event, \x27Alpha\x27)\">Alpha</div>" =
        tabLink alphaFolder.name ∧
      tabId alphaFolder.name = (tabName alphaFolder.name).map
        (fun ch => if ch = ' ' then '_' else ch) ∧
      ∃ csvFrs pngFrs,
        List.Forall₂ (fun e fr => csvFragment e = .ok fr)
          (sortedCsvs alphaFolder) csvFrs ∧
        List.Forall₂ (fun e fr => plotFragment e = .ok fr)
          (sortedPngs alphaFolder) pngFrs ∧
        str "<div id=\"Alpha\" class=\"tab-content\"><h2>metrics</h2><table border=\"1\" class=\"dataframe table\">\n  <thead>\n    <tr style=\"text-align: right;\">\n      <th>A</th>\n      <th>B</th>\n    </tr>\n  </thead>\n  <tbody>\n    <tr>\n      <td>1</td>\n      <td>2</td>\n    </tr>\n  </tbody>\n</table>\n            <div class=\"plot\">\n                <h3>plot</h3>\n                <img src=\"data:image/png;base64,iVBORw==\" alt=\"plot\">\n            </div>\n            </div>" =
          str "<div id=\"" ++ tabId alphaFolder.name ++
          str "\" class=\"tab-content\">" ++ csvFrs.flatten ++
          pngFrs.flatten ++ str "</div>") :=
  ⟨(assembly_spec (str "x")).1 [.file (str "notes.txt") [], alphaFolder],
   (assembly_spec (str "x")).2 alphaFolder _ _ rfl rfl⟩

theorem entryLE_antisymm_name {a b : Entry} (h1 : entryLE a b)
    (h2 : entryLE b a) : a.name = b.name := by
  unfold entryLE keyLE extract_key at h1 h2
  rcases h1 with h1 | ⟨h1k, h1n⟩ <;> rcases h2 with h2 | ⟨h2k, h2n⟩
  · exact absurd h2 (lt_asymm h1)
  · rw [h2k] at h1
    exact absurd h1 (lt_irrefl _)
  · rw [h1k] at h2
    exact absurd h2 (lt_irrefl _)
  · exact le_antisymm h1n h2n

/-- Two sorted permutations of each other with pairwise-distinct names are
the same list (the sort order is a total order once names are distinct). -/
theorem eq_of_perm_sorted_nodup :
    ∀ l1 l2 : List Entry, l1.Perm l2 → List.Pairwise entryLE l1 →
      List.Pairwise entryLE l2 → (l1.map Entry.name).Nodup → l1 = l2
  | [], l2, hp, _, _, _ => hp.nil_eq
  | a :: t1, l2, hp, hs1, hs2, hnd => by
    cases l2 with
    | nil => cases hp.eq_nil
    | cons b t2 =>
      have hab : a = b := by
        by_contra hne
        have ha2 : a ∈ b :: t2 := hp.subset (List.mem_cons_self a t1)
        have hb1 : b ∈ a :: t1 := hp.symm.subset (List.mem_cons_self b t2)
        have hat2 : a ∈ t2 := by
          rcases List.mem_cons.1 ha2 with h | h
          · exact absurd h hne
          · exact h
        have hbt1 : b ∈ t1 := by
          rcases List.mem_cons.1 hb1 with h | h
          · exact absurd h.symm hne
          · exact h
        have hname : a.name = b.name :=
          entryLE_antisymm_name (List.rel_of_pairwise_cons hs1 hbt1)
            (List.rel_of_pairwise_cons hs2 hat2)
        rw [List.map_cons] at hnd
        exact (List.nodup_cons.1 hnd).1
          (hname ▸ List.mem_map_of_mem Entry.name hbt1)
      subst hab
      rw [eq_of_perm_sorted_nodup t1 t2 hp.cons_inv hs1.of_cons hs2.of_cons
        (by rw [List.map_cons] at hnd; exact (List.nodup_cons.1 hnd).2)]

theorem sort_eq_of_perm {l1 l2 : List Entry} (hp : l1.Perm l2)
    (hnd : (l1.map Entry.name).Nodup) :
    sort_files_and_folders l1 = sort_files_and_folders l2 :=
  eq_of_perm_sorted_nodup _ _
    ((List.perm_insertionSort entryLE l1).trans
      (hp.trans (List.perm_insertionSort entryLE l2).symm))
    (List.sorted_insertionSort entryLE l1)
    (List.sorted_insertionSort entryLE l2)
    (((List.perm_insertionSort entryLE l1).map Entry.name).symm.nodup hnd)

theorem EntryEquiv.name_eq : ∀ {a b : Entry}, EntryEquiv a b → a.name = b.name
  | .file _ _, .file _ _, h => h.1
  | .dir _ _, .dir _ _, h => h.1
  | .file _ _, .dir _ _, h => h.elim
  | .dir _ _, .file _ _, h => h.elim

theorem entryLE_congr {a b c d : Entry} (h1 : a.name = b.name)
    (h2 : c.name = d.name) : entryLE a c ↔ entryLE b d := by
  unfold entryLE
  rw [h1, h2]

theorem orderedInsert_equiv {a b : Entry} (hab : EntryEquiv a b) :
    ∀ {l1 l2 : List Entry}, List.Forall₂ EntryEquiv l1 l2 →
      List.Forall₂ EntryEquiv (l1.orderedInsert entryLE a)
        (l2.orderedInsert entryLE b)
  | _, _, .nil => .cons hab .nil
  | c :: l1', d :: l2', .cons hcd htl => by
    by_cases hr : entryLE a c
    · rw [List.orderedInsert_of_le entryLE _ hr,
        List.orderedInsert_of_le entryLE _
          ((entryLE_congr hab.name_eq hcd.name_eq).1 hr)]
      exact .cons hab (.cons hcd htl)
    · rw [orderedInsert_cons_of_not_le _ hr,
        orderedInsert_cons_of_not_le _
          (fun hbd => hr ((entryLE_congr hab.name_eq hcd.name_eq).2 hbd))]
      exact .cons hcd (orderedInsert_equiv hab htl)

theorem sort_files_equiv :
    ∀ {l1 l2 : List Entry}, List.Forall₂ EntryEquiv l1 l2 →
      List.Forall₂ EntryEquiv (sort_files_and_folders l1)
        (sort_files_and_folders l2)
  | _, _, .nil => .nil
  | a :: l1', b :: l2', .cons hab htl => by
    show List.Forall₂ EntryEquiv
      (List.orderedInsert entryLE a (List.insertionSort entryLE l1'))
      (List.orderedInsert entryLE b (List.insertionSort entryLE l2'))
    exact orderedInsert_equiv hab (sort_files_equiv htl)

theorem processFolder_equiv {n : List Char} {cs cs' : List Entry}
    (hperm : cs.Perm cs') (hnd : (cs.map Entry.name).Nodup) :
    processFolder (.dir n cs) = processFolder (.dir n cs') := by
  have hndf : ∀ q : Entry → Bool,
      ((cs.filter q).map Entry.name).Nodup := fun q =>
    ((List.filter_sublist cs).map Entry.name).nodup hnd
  have hcsv : sortedCsvs (.dir n cs) = sortedCsvs (.dir n cs') := by
    unfold sortedCsvs
    show sort_files_and_folders (cs.filter _) =
      sort_files_and_folders (cs'.filter _)
    exact sort_eq_of_perm (hperm.filter _) (hndf _)
  have hpng : sortedPngs (.dir n cs) = sortedPngs (.dir n cs') := by
    unfold sortedPngs
    show sort_files_and_folders (cs.filter _) =
      sort_files_and_folders (cs'.filter _)
    exact sort_eq_of_perm (hperm.filter _) (hndf _)
  unfold processFolder
  rw [hcsv, hpng]
  rfl

theorem goFolders_equiv :
    ∀ {l1 l2 : List Entry}, List.Forall₂ EntryEquiv l1 l2 →
      (∀ e ∈ l1, (e.children.map Entry.name).Nodup) →
      goFolders l1 = goFolders l2
  | _, _, .nil, _ => rfl
  | a :: l1', b :: l2', .cons hab htl, hnd => by
    have hndtl : ∀ e ∈ l1', (e.children.map Entry.name).Nodup :=
      fun e he => hnd e (List.mem_cons_of_mem a he)
    cases a with
    | file an ac =>
      cases b with
      | file bn bc =>
        obtain ⟨h1, h2⟩ := hab
        subst h1
        subst h2
        simp only [goFolders]
        rw [if_neg (by simp [Entry.isDir]), if_neg (by simp [Entry.isDir])]
        exact goFolders_equiv htl hndtl
      | dir bn bcs => exact hab.elim
    | dir an acs =>
      cases b with
      | file bn bc => exact hab.elim
      | dir bn bcs =>
        obtain ⟨h1, hcperm⟩ := hab
        subst h1
        have hpf : processFolder (.dir an acs) = processFolder (.dir an bcs) :=
          processFolder_equiv hcperm (hnd _ (List.mem_cons_self _ _))
        simp only [goFolders]
        rw [if_pos (show (Entry.dir an acs).isDir = true from rfl),
          if_pos (show (Entry.dir an bcs).isDir = true from rfl), hpf]
        cases hres : processFolder (.dir an bcs) with
        | error m => rfl
        | ok lc =>
          cases lc with
          | mk link content => rw [goFolders_equiv htl hndtl]

/-- C10: `generate_html_report` is deterministic in the filesystem's
enumeration order.  Two input directories holding identical sets of entry
names with identical contents, enumerated in any orders at either level,
produce byte-identical documents. -/
theorem deterministic_generation (p : List Char) (es1 es2 : List Entry)
    (hwf : wellFormedListing es1) (heq : DirsEquiv es1 es2) :
    generate_html_report p (.dir es1) = generate_html_report p (.dir es2) := by
  rcases heq with ⟨mid, hperm, hall⟩
  have h1 : sort_files_and_folders es1 = sort_files_and_folders mid :=
    sort_eq_of_perm hperm hwf.1
  have h2 : List.Forall₂ EntryEquiv (sort_files_and_folders mid)
      (sort_files_and_folders es2) := sort_files_equiv hall
  have h3 : ∀ e ∈ sort_files_and_folders mid,
      (e.children.map Entry.name).Nodup := by
    intro e he
    apply hwf.2
    have hmid : e ∈ mid := by
      have := (List.perm_insertionSort entryLE mid).subset
      exact this he
    exact hperm.symm.subset hmid
  have h4 : goFolders (sort_files_and_folders mid) =
      goFolders (sort_files_and_folders es2) := goFolders_equiv h2 h3
  simp only [generate_html_report]
  rw [h1, h4]

/-- Witness for C10: a folder plus a stray file, listed in two different
orders with the folder's two files also swapped, produce the same
document. -/
theorem deterministic_generation_witness :
    generate_html_report (str "in")
      (.dir [.dir (str "01_A")
          [.file (str "x.csv") ((str "A\n1\n").map Char.toNat),
           .file (str "y.png") [1, 2, 3]],
        .file (str "readme.txt") []]) =
    generate_html_report (str "in")
      (.dir [.file (str "readme.txt") [],
        .dir (str "01_A")
          [.file (str "y.png") [1, 2, 3],
           .file (str "x.csv") ((str "A\n1\n").map Char.toNat)]]) :=
  deterministic_generation (str "in") _ _ (by decide)
    ⟨[.file (str "readme.txt") [],
      .dir (str "01_A")
        [.file (str "x.csv") ((str "A\n1\n").map Char.toNat),
         .file (str "y.png") [1, 2, 3]]],
     List.Perm.swap _ _ _,
     List.Forall₂.cons (show EntryEquiv _ _ from ⟨rfl, rfl⟩)
       (List.Forall₂.cons
         (show EntryEquiv _ _ from ⟨rfl, List.Perm.swap _ _ _⟩)
         List.Forall₂.nil)⟩

end HtmlGen
